import Mathlib

/-!
Verification of the mp3tools tag-normalization core.

Shallow embedding conventions:
* A Go string is modelled as its sequence of Unicode code points
  (`GoStr := List Nat`): every string operation the embedded code performs
  observes a string either through `for _, r := range s` (its runes) or
  through `[]byte(s)` / `len(s)` (its UTF-8 bytes); the byte views are
  recovered with an explicit UTF-8 encoder.  Strings are assumed to be
  valid UTF-8 (the reading of invalid byte sequences through `range`
  yields U+FFFD runes, which the rune model represents directly).
* Go float64 ratio comparisons `float64(a)/float64(b) > 0.1 / 0.2 / 0.3`
  are modelled by the exact rational comparisons `10*a > b`, `5*a > b`,
  `10*a > 3*b`.  These coincide with the IEEE-754 comparisons for every
  count pair in reach of a real string (divergence would need string
  lengths beyond 10^15 runes).
* The external statistical charset detector (`chardet`) and the external
  decoding tables (GBK, Big5, UTF-16) are not part of this repository;
  they are abstracted as an `ExtCodec` parameter, while the dispatch
  logic around them (`getDecoder`, `ConvertStringToUTF8`, `FixEncoding`)
  is embedded from the source.
-/

/-- A Go string, as its list of Unicode code points. -/
abbrev GoStr := List Nat

/-- Code points of a Lean string literal, used to transport concrete examples. -/
def gostr (s : String) : GoStr := s.toList.map Char.toNat

/-- A Unicode scalar value: what one iteration of `for _, r := range s`
    yields on a Go string. -/
def validScalar (r : Nat) : Prop := r < 0x110000 ∧ ¬ (0xD800 ≤ r ∧ r ≤ 0xDFFF)

instance (r : Nat) : Decidable (validScalar r) := by
  unfold validScalar; infer_instance

/-- UTF-8 encoding of one scalar value (Go `utf8.AppendRune` on a valid rune). -/
def utf8EncodeChar (r : Nat) : List Nat :=
  if r < 0x80 then [r]
  else if r < 0x800 then [0xC0 + r / 64, 0x80 + r % 64]
  else if r < 0x10000 then [0xE0 + r / 4096, 0x80 + r / 64 % 64, 0x80 + r % 64]
  else [0xF0 + r / 262144, 0x80 + r / 4096 % 64, 0x80 + r / 64 % 64, 0x80 + r % 64]

/-- UTF-8 bytes of a string (Go `[]byte(s)` for a valid string). -/
def utf8Encode (s : GoStr) : List Nat := s.flatMap utf8EncodeChar

/-- Second-byte acceptance for a three-byte lead, as in Go `utf8.acceptRanges`:
    lead 0xE0 requires 0xA0..0xBF (no overlong), lead 0xED requires
    0x80..0x9F (no surrogates), other leads require a plain continuation. -/
def sndOk3 (b c : Nat) : Bool :=
  if b = 0xE0 then decide (0xA0 ≤ c ∧ c ≤ 0xBF)
  else if b = 0xED then decide (0x80 ≤ c ∧ c ≤ 0x9F)
  else decide (0x80 ≤ c ∧ c ≤ 0xBF)

/-- Second-byte acceptance for a four-byte lead: lead 0xF0 requires
    0x90..0xBF, lead 0xF4 requires 0x80..0x8F (≤ U+10FFFF). -/
def sndOk4 (b c : Nat) : Bool :=
  if b = 0xF0 then decide (0x90 ≤ c ∧ c ≤ 0xBF)
  else if b = 0xF4 then decide (0x80 ≤ c ∧ c ≤ 0x8F)
  else decide (0x80 ≤ c ∧ c ≤ 0xBF)

/-- A UTF-8 continuation byte. -/
def isCont (c : Nat) : Bool := decide (0x80 ≤ c ∧ c ≤ 0xBF)

/-- One step of Go UTF-8 decoding (`utf8.DecodeRuneInString` on byte `b`
    followed by `rest`): returns the decoded rune and how many bytes of
    `rest` are consumed in addition to `b`.  An invalid or incomplete
    sequence yields U+FFFD and consumes only `b`, exactly as Go returns
    `(RuneError, 1)`. -/
def decodeOne (b : Nat) (rest : List Nat) : Nat × Nat :=
  if b < 0x80 then (b, 0)
  else if 0xC2 ≤ b ∧ b ≤ 0xDF then
    match rest with
    | c :: _ => if isCont c then ((b - 0xC0) * 64 + (c - 0x80), 1) else (0xFFFD, 0)
    | [] => (0xFFFD, 0)
  else if 0xE0 ≤ b ∧ b ≤ 0xEF then
    match rest with
    | c :: d :: _ =>
      if sndOk3 b c ∧ isCont d then
        ((b - 0xE0) * 4096 + (c - 0x80) * 64 + (d - 0x80), 2)
      else (0xFFFD, 0)
    | _ => (0xFFFD, 0)
  else if 0xF0 ≤ b ∧ b ≤ 0xF4 then
    match rest with
    | c :: d :: e :: _ =>
      if sndOk4 b c ∧ isCont d ∧ isCont e then
        ((b - 0xF0) * 262144 + (c - 0x80) * 4096 + (d - 0x80) * 64 + (e - 0x80), 3)
      else (0xFFFD, 0)
    | _ => (0xFFFD, 0)
  else (0xFFFD, 0)

/-- Fuelled decoding loop; with fuel at least the list length it decodes
    the whole byte string. -/
def utf8DecodeGo : Nat → List Nat → List Nat
  | _, [] => []
  | 0, _ :: _ => []
  | fuel + 1, b :: rest =>
    (decodeOne b rest).1 :: utf8DecodeGo fuel (rest.drop (decodeOne b rest).2)

/-- UTF-8 decoding with Go semantics: the rune sequence `for _, r := range s`
    yields on the byte string `s`. -/
def utf8Decode (s : List Nat) : List Nat := utf8DecodeGo s.length s

/-! Section: Encoder (`internal/encoder/encoder.go`) -/

/-- Go `isValidUTF8WithChinese`: despite its name, it only checks that some
    code point lies in the CJK Unified Ideographs range U+4E00..U+9FFF or
    the CJK punctuation range U+3000..U+303F. -/
def isValidUTF8WithChinese (s : GoStr) : Bool :=
  s.any fun r =>
    decide (0x4E00 ≤ r ∧ r ≤ 0x9FFF) || decide (0x3000 ≤ r ∧ r ≤ 0x303F)

/-- Go `FixDoubleEncoding`: reinterpret every rune as one byte (no match if
    any rune exceeds 255), read the byte string back as UTF-8, and accept
    only if the result contains a CJK rune. -/
def fixDoubleEncoding (s : GoStr) : GoStr × Bool :=
  if s = [] then (s, false)
  else if s.all (fun r => decide (r ≤ 255)) then
    let candidate := utf8Decode s
    if isValidUTF8WithChinese candidate then (candidate, true) else (s, false)
  else (s, false)

/-- Count of question marks in `IsGarbled`. -/
def qmCount (s : GoStr) : Nat := s.countP fun r => r == 63

/-- Count of U+FFFD replacement characters in `IsGarbled`. -/
def replCount (s : GoStr) : Nat := s.countP fun r => r == 0xFFFD

/-- Count of invalid or surrogate code points in `IsGarbled`. -/
def invalidCount (s : GoStr) : Nat :=
  s.countP fun r => decide (0x10FFFF < r) || decide (0xD800 ≤ r ∧ r ≤ 0xDFFF)

/-- Count of "unusual" code points in `IsGarbled`: 0x80..0x9F, the signs
    U+00D7 and U+00F7, and C0 controls other than newline, carriage return
    and tab. -/
def unusualCount (s : GoStr) : Nat :=
  s.countP fun r =>
    decide (0x80 ≤ r ∧ r ≤ 0x9F) || r == 0xD7 || r == 0xF7 ||
      (decide (r < 0x20) && !(r == 10) && !(r == 13) && !(r == 9))

/-- Count of Latin-1 extended code points 0xA0..0xFF excluding the
    non-breaking space 0xA0 in `IsGarbled`. -/
def latin1Count (s : GoStr) : Nat :=
  s.countP fun r => decide (0xA0 ≤ r ∧ r ≤ 0xFF) && !(r == 0xA0)

/-- Go `IsGarbled`.  The float64 ratio comparisons `> 0.1`, `> 0.2`, `> 0.3`
    are rendered exactly as `10*x > n`, `5*x > n`, `10*x > 3*n`. -/
def isGarbled (s : GoStr) : Bool :=
  if s = [] then false
  else
    let q := qmCount s
    let n := s.length
    if n = 0 then false
    else if 10 * q > n then true
    else if 5 * (q + replCount s + invalidCount s + unusualCount s + latin1Count s) > n then
      true
    else if 0 < q ∧ (0 < unusualCount s ∨ 0 < latin1Count s) ∧
        10 * (q + unusualCount s + latin1Count s) > 2 * n then true
    else if 10 * latin1Count s > 3 * n then true
    else false

/-- The external collaborators of the encoder: the `chardet` statistical
    detector (`none` models a detection error) and the `golang.org/x/text`
    decoding tables (bytes to runes; `none` models a decoding error). -/
structure ExtCodec where
  detectBest : List Nat → Option GoStr
  gbkDecode : List Nat → Option GoStr
  big5Decode : List Nat → Option GoStr
  utf16leDecode : List Nat → Option GoStr
  utf16beDecode : List Nat → Option GoStr

/-- The decoder families `getDecoder` can select. -/
inductive DecKind where
  | gbk | big5 | utf16le | utf16be
deriving DecidableEq

/-- Go `getDecoder`: charset label to decoder table; `ISO-8859-1` and
    `windows-1252` deliberately map to no decoder, as does any
    unrecognized label. -/
def getDecoder (cs : GoStr) : Option DecKind :=
  if cs = gostr r"GB2312" ∨ cs = gostr r"GB-2312" ∨ cs = gostr r"GBK" ∨
      cs = gostr r"GB18030" then some DecKind.gbk
  else if cs = gostr r"Big5" ∨ cs = gostr r"BIG5" then some DecKind.big5
  else if cs = gostr r"UTF-16LE" then some DecKind.utf16le
  else if cs = gostr r"UTF-16BE" then some DecKind.utf16be
  else none

/-- Dispatch to the external decoder table of a kind. -/
def runDecoder (C : ExtCodec) : DecKind → List Nat → Option GoStr
  | DecKind.gbk => C.gbkDecode
  | DecKind.big5 => C.big5Decode
  | DecKind.utf16le => C.utf16leDecode
  | DecKind.utf16be => C.utf16beDecode

/-- Go `DetectEncoding`: empty input is reported as UTF-8 without
    consulting the detector; `none` is a detection error. -/
def detectEncoding (C : ExtCodec) (data : List Nat) : Option GoStr :=
  if data = [] then some (gostr r"UTF-8") else C.detectBest data

/-- Go `ConvertToUTF8`, on the runes of the input string (the byte view
    `[]byte(str)` is `utf8Encode str`): UTF-8 or empty label and labels
    with no decoder return the input unchanged; a decoder error returns
    the input together with the error flag. -/
def convertToUTF8 (C : ExtCodec) (str : GoStr) (cs : GoStr) : GoStr × Bool :=
  if str = [] then ([], false)
  else if cs = gostr r"UTF-8" ∨ cs = [] then (str, false)
  else
    match getDecoder cs with
    | none => (str, false)
    | some k =>
      match runDecoder C k (utf8Encode str) with
      | some out => (out, false)
      | none => (str, true)

/-- Go `ConvertStringToUTF8`: returns (converted string, charset label,
    error flag); on a detection or conversion error the input is returned. -/
def convertStringToUTF8 (C : ExtCodec) (str : GoStr) : GoStr × GoStr × Bool :=
  match detectEncoding C (utf8Encode str) with
  | none => (str, gostr r"UTF-8", true)
  | some cs =>
    let conv := convertToUTF8 C str cs
    (if conv.2 then str else conv.1, cs, conv.2)

/-- Go `FixEncoding`: double-encoding repair first, then detection plus
    conversion; `changed` holds only if the label was not plain UTF-8 and
    the text actually differs. -/
def fixEncoding (C : ExtCodec) (str : GoStr) : GoStr × GoStr × Bool :=
  if str = [] then ([], gostr r"UTF-8", false)
  else
    match fixDoubleEncoding str with
    | (f, true) => (f, gostr r"UTF-8 (double-encoded)", true)
    | (_, false) =>
      let r := convertStringToUTF8 C str
      if r.2.2 then (str, gostr r"UTF-8", false)
      else (r.1, r.2.1, decide (r.2.1 ≠ gostr r"UTF-8") && decide (r.1 ≠ str))

/-- Go `convertPathToUTF8` (in the processor): best-effort conversion of a
    path component, returning the input on error. -/
def convertPathToUTF8 (C : ExtCodec) (p : GoStr) : GoStr :=
  if p = [] then p
  else
    let r := convertStringToUTF8 C p
    if r.2.2 then p else r.1

/-- An idealized instantiation of the external collaborators: the detector
    always reports UTF-8 (and the decoder tables are never consulted).
    Used to evaluate the embedding on concrete inputs. -/
def trivialCodec : ExtCodec where
  detectBest := fun _ => some (gostr r"UTF-8")
  gbkDecode := fun _ => none
  big5Decode := fun _ => none
  utf16leDecode := fun _ => none
  utf16beDecode := fun _ => none

/-! Section: Tag cleaner (`cleanTagText` and its regular expressions)

The Go regular expressions are compiled by hand into deterministic
matchers.  Each pattern's tokens have pairwise disjoint first character
classes (whitespace, `,`, `#`, digits, letters), so greedy matching
without backtracking is equivalent; the only alternations
(`Digital\s+Audio|DA`, `https?`, the extension list, `\s|$|\.`) are
tried in the source order, as RE2's leftmost-first semantics does. -/

/-- The characters matched by `\s` in Go regexp: tab, newline, form feed,
    carriage return, space. -/
def isReWs (c : Nat) : Bool := c == 9 || c == 10 || c == 12 || c == 13 || c == 32

/-- An ASCII digit, as matched by `\d` in Go regexp. -/
def isAsciiDigit (c : Nat) : Bool := decide (48 ≤ c ∧ c ≤ 57)

/-- Go `unicode.IsSpace` (the White_Space property), used by
    `strings.TrimSpace`. -/
def goIsSpaceB (c : Nat) : Bool :=
  c == 9 || c == 10 || c == 11 || c == 12 || c == 13 || c == 32 ||
    c == 0x85 || c == 0xA0 || c == 0x1680 || decide (0x2000 ≤ c ∧ c ≤ 0x200A) ||
    c == 0x2028 || c == 0x2029 || c == 0x202F || c == 0x205F || c == 0x3000

/-- Simple case folding onto the ASCII letters, as `(?i)` does in RE2:
    upper-case ASCII, the Kelvin sign (folds to `k`) and the long s
    (folds to `s`). -/
def foldAsciiChar (c : Nat) : Nat :=
  if 65 ≤ c ∧ c ≤ 90 then c + 32
  else if c = 0x212A then 107
  else if c = 0x17F then 115
  else c

/-- Strip a literal pattern (given lower-case) case-insensitively from the
    front; returns the remainder on success. -/
def stripCI : GoStr → GoStr → Option GoStr
  | [], s => some s
  | _ :: _, [] => none
  | p :: ps, c :: cs => if foldAsciiChar c = p then stripCI ps cs else none

/-- Match `\s+` greedily. -/
def wsPlus : GoStr → Option GoStr
  | [] => none
  | c :: cs => if isReWs c then some (cs.dropWhile isReWs) else none

/-- Match `\d+` greedily. -/
def digits1 : GoStr → Option GoStr
  | [] => none
  | c :: cs => if isAsciiDigit c then some (cs.dropWhile isAsciiDigit) else none

/-- Match an optional single character (`,?`, `#?`). -/
def stripOptChar (x : Nat) : GoStr → GoStr
  | [] => []
  | c :: cs => if c = x then cs else c :: cs

/-- Match `Track#?\s*\d+.*$` (`.` does not match a newline, `$` is end of
    text, so the trailing `.*$` requires the remainder to be free of
    newlines). -/
def trackTail (t : GoStr) : Bool :=
  match stripCI (gostr r"track") t with
  | none => false
  | some t1 =>
    match digits1 ((stripOptChar 35 t1).dropWhile isReWs) with
    | none => false
    | some t4 => !(t4.contains 10)

/-- Go pattern `(?i)^CD\s+Digital\s+Audio\s*,?\s*Track#?\s*\d+.*$`. -/
def matchCd1 (s : GoStr) : Bool :=
  match stripCI (gostr r"cd") s with
  | none => false
  | some s1 =>
    match wsPlus s1 with
    | none => false
    | some s2 =>
      match stripCI (gostr r"digital") s2 with
      | none => false
      | some s3 =>
        match wsPlus s3 with
        | none => false
        | some s4 =>
          match stripCI (gostr r"audio") s4 with
          | none => false
          | some s5 =>
            trackTail ((stripOptChar 44 (s5.dropWhile isReWs)).dropWhile isReWs)

/-- Go pattern `(?i)^CD\s*(Digital\s+Audio|DA)\s*,?\s*Track#?\s*\d+.*$`.
    The two alternatives diverge at their second character (`i` against
    `a`), so committing to the first matching one is faithful. -/
def matchCd2 (s : GoStr) : Bool :=
  match stripCI (gostr r"cd") s with
  | none => false
  | some s1 =>
    let s1b := s1.dropWhile isReWs
    let grp :=
      (do
        let a ← stripCI (gostr r"digital") s1b
        let b ← wsPlus a
        stripCI (gostr r"audio") b) <|>
      stripCI (gostr r"da") s1b
    match grp with
    | none => false
    | some s5 =>
      trackTail ((stripOptChar 44 (s5.dropWhile isReWs)).dropWhile isReWs)

/-- Go pattern `(?i)^(CD\s*)?Track#?\s*\d+.*$`: the optional group is
    tried first, falling back to matching without it. -/
def matchCd3 (s : GoStr) : Bool :=
  (match stripCI (gostr r"cd") s with
   | some s1 => trackTail (s1.dropWhile isReWs)
   | none => false) ||
  trackTail s

/-- Match `[^\s]+` greedily. -/
def nonWsPlus : GoStr → Option GoStr
  | [] => none
  | c :: cs => if isReWs c then none else some (cs.dropWhile (fun x => !isReWs x))

/-- Match the URL pattern `(?i)(https?://[^\s]+|www\.[^\s]+)` at the
    current position, returning the remainder after the match. -/
def urlAt (s : GoStr) : Option GoStr :=
  (do
    let a ← stripCI (gostr r"http") s
    let b ← stripCI (gostr r"s://") a <|> stripCI (gostr r"://") a
    nonWsPlus b) <|>
  (do
    let a ← stripCI (gostr r"www.") s
    nonWsPlus a)

/-- The fixed top-level-domain alternation of the bracketed-domain pattern,
    in source order. -/
def tldList : List GoStr :=
  [gostr r"com", gostr r"cn", gostr r"net", gostr r"org", gostr r"edu", gostr r"gov",
   gostr r"io", gostr r"co", gostr r"uk", gostr r"de", gostr r"fr", gostr r"jp",
   gostr r"ru", gostr r"au", gostr r"ca", gostr r"br", gostr r"in", gostr r"it",
   gostr r"es", gostr r"nl", gostr r"se", gostr r"no", gostr r"dk", gostr r"fi",
   gostr r"pl", gostr r"cz", gostr r"hu", gostr r"gr", gostr r"pt", gostr r"ie",
   gostr r"at", gostr r"ch", gostr r"be", gostr r"tr", gostr r"kr", gostr r"tw",
   gostr r"hk", gostr r"sg", gostr r"my", gostr r"th", gostr r"vn", gostr r"id",
   gostr r"ph", gostr r"nz", gostr r"za", gostr r"mx", gostr r"ar", gostr r"cl",
   gostr r"pe", gostr r"eg", gostr r"sa", gostr r"ae", gostr r"il", gostr r"pk",
   gostr r"bd", gostr r"lk", gostr r"np", gostr r"mm", gostr r"kh", gostr r"la",
   gostr r"mn", gostr r"kz", gostr r"uz", gostr r"az", gostr r"ge", gostr r"am",
   gostr r"by", gostr r"ua", gostr r"md", gostr r"ro", gostr r"bg", gostr r"rs",
   gostr r"hr", gostr r"si", gostr r"sk", gostr r"lt", gostr r"lv", gostr r"ee",
   gostr r"is", gostr r"mt", gostr r"cy", gostr r"lu", gostr r"mc", gostr r"ad",
   gostr r"li", gostr r"sm", gostr r"va", gostr r"me", gostr r"ba", gostr r"mk",
   gostr r"al", gostr r"xk"]

/-- Whether a bracket body contains `.` followed by one of the listed
    top-level domains (the `[^\]]*\.(tld|…)[^\]]*` body). -/
def hasTldDot : GoStr → Bool
  | [] => false
  | c :: cs => (c == 46 && tldList.any (fun t => t.isPrefixOf cs)) || hasTldDot cs

/-- Match the bracketed-domain pattern at the current position: the match
    always extends from `[` to the first following `]` (the body class
    excludes `]`), and succeeds iff that body contains a dot-TLD. -/
def domainAt (s : GoStr) : Option GoStr :=
  match s with
  | 91 :: rest =>
    let body := rest.takeWhile fun c => !(c == 93)
    if body.length < rest.length ∧ hasTldDot body then
      some (rest.drop (body.length + 1))
    else none
  | _ => none

/-- The audio-extension alternation, in source order. -/
def extList : List GoStr :=
  [gostr r"mp3", gostr r"wav", gostr r"flac", gostr r"m4a", gostr r"aac",
   gostr r"ogg", gostr r"wma", gostr r"ape", gostr r"wv", gostr r"tta",
   gostr r"tak", gostr r"ofr", gostr r"ofs", gostr r"off", gostr r"rka",
   gostr r"shn", gostr r"aa3", gostr r"gsm", gostr r"3gp", gostr r"amr",
   gostr r"awb", gostr r"au", gostr r"snd", gostr r"ra", gostr r"rm",
   gostr r"ram", gostr r"dct", gostr r"vox", gostr r"sln"]

/-- The trailing `(\s|$|\.)` of the extension pattern: how many extra
    characters it consumes, or `none` if it cannot match. -/
def extEndOk : GoStr → Option Nat
  | [] => some 0
  | c :: _ => if isReWs c || c == 46 then some 1 else none

/-- Try each extension alternative in order with its required terminator
    (RE2 backtracks into later alternatives when the terminator fails). -/
def findExt : List GoStr → GoStr → Option Nat
  | [], _ => none
  | e :: es, rest =>
    match stripCI e rest with
    | some r2 =>
      match extEndOk r2 with
      | some extra => some (e.length + extra)
      | none => findExt es rest
    | none => findExt es rest

/-- Match the embedded-extension pattern
    `(?i)\.(mp3|wav|…)(\s|$|\.)` at the current position. -/
def extAt (s : GoStr) : Option GoStr :=
  match s with
  | 46 :: rest =>
    match findExt extList rest with
    | some n => some (rest.drop n)
    | none => none
  | _ => none

/-- Match one whitespace run `\s+` at the current position (for the
    whitespace-collapsing replacement). -/
def wsAt (s : GoStr) : Option GoStr :=
  match s with
  | c :: cs => if isReWs c then some (cs.dropWhile isReWs) else none
  | [] => none

/-- Fuelled scan of `regexp.ReplaceAllString`: at each position try the
    matcher; on a match emit the replacement and continue after it,
    otherwise keep the character.  Every matcher consumes at least one
    character, so fuel equal to the length suffices. -/
def replaceScanF (m : GoStr → Option GoStr) (repl : GoStr) : Nat → GoStr → GoStr
  | _, [] => []
  | 0, s => s
  | fuel + 1, c :: cs =>
    match m (c :: cs) with
    | some rem => repl ++ replaceScanF m repl fuel rem
    | none => c :: replaceScanF m repl fuel cs

/-- Go `regexp.ReplaceAllString` with replacement `repl`. -/
def replaceScan (m : GoStr → Option GoStr) (repl : GoStr) (s : GoStr) : GoStr :=
  replaceScanF m repl s.length s

/-- Go `strings.TrimLeft` by a character predicate. -/
def trimLeftBy (p : Nat → Bool) (s : GoStr) : GoStr := s.dropWhile p

/-- Go `strings.TrimRight` by a character predicate. -/
def trimRightBy (p : Nat → Bool) (s : GoStr) : GoStr := (s.reverse.dropWhile p).reverse

/-- Go `strings.Trim` by a character predicate. -/
def trimBy (p : Nat → Bool) (s : GoStr) : GoStr := trimRightBy p (trimLeftBy p s)

/-- Go `len(s)`: the UTF-8 byte length of a string. -/
def strByteLen (s : GoStr) : Nat := (utf8Encode s).length

/-- Go `cleanTagText`: boilerplate CD-title patterns empty the text
    outright (the short pattern only under 50 bytes); then URLs, bracketed
    domains and embedded audio extensions are removed, whitespace is
    normalized and separator-only results become empty. -/
def cleanTagText (text : GoStr) : GoStr :=
  if text = [] then text
  else if matchCd1 text then []
  else if matchCd2 text then []
  else if matchCd3 text ∧ strByteLen text < 50 then []
  else
    let c1 := replaceScan urlAt [] text
    let c2 := replaceScan domainAt [] c1
    let c3 := replaceScan extAt [] c2
    let c4 := trimBy (fun c => c == 32 || c == 9 || c == 10 || c == 13) c3
    let c5 := trimRightBy (fun c => c == 45) c4
    let c6 := replaceScan wsAt (gostr r" ") c5
    let c7 := trimBy goIsSpaceB c6
    if c7 = [] ∨ c7 = gostr r"---" ∨ c7 = gostr r"[]" then [] else c7

/-! Section: Fallback derivation (`formatTitle`, `formatTitleFromFilename`) -/

/-- Splitter for the Go regex `^(\d+)\s+(.+)$` in `formatTitle`: on a
    match, returns (digit run, rest).  The digit run is the maximal digit
    prefix; the whitespace run is maximal except that when nothing would
    remain for `.+`, its last character is given back (RE2 backtracking),
    and `.+` may not contain a newline. -/
def ftSplit (title : GoStr) : Option (GoStr × GoStr) :=
  let digits := title.takeWhile isAsciiDigit
  if digits = [] then none
  else
    let u := (title.drop digits.length)
    let w := u.takeWhile isReWs
    if w = [] then none
    else
      let r := u.drop w.length
      if r = [] then
        match w.reverse with
        | l :: _ :: _ => if l = 10 then none else some (digits, [l])
        | _ => none
      else if r.contains 10 then none
      else some (digits, r)

/-- Go `formatTitle`: zero-pad a single leading digit followed by
    whitespace and a rest ("1 Title" becomes "01 Title"); otherwise return
    the title unchanged. -/
def formatTitle (title : GoStr) : GoStr :=
  match ftSplit title with
  | some (number, rest) =>
    if number.length = 1 then 48 :: number ++ 32 :: rest else title
  | none => title

/-- Go `formatTitleFromFilename`: a purely numeric stem is zero-padded to
    at least two digits; otherwise the maximal trailing digit run (regex
    `^(.+?)(\d+)$`, whose lazy group makes the digit run maximal while the
    leading text stays non-empty and newline-free) is zero-padded and moved
    to the front, the leading text losing its trailing spaces; with no
    trailing digit run the stem is returned unchanged. -/
def formatTitleFromFilename (fileName : GoStr) : GoStr :=
  if fileName ≠ [] ∧ fileName.all isAsciiDigit then
    if fileName.length = 1 then 48 :: fileName else fileName
  else
    let digits := (fileName.reverse.takeWhile isAsciiDigit).reverse
    let text := fileName.take (fileName.length - digits.length)
    if digits ≠ [] ∧ text ≠ [] ∧ ¬ text.contains 10 then
      let text2 := trimRightBy (fun c => c == 32) text
      if text2 = [] then
        if digits.length = 1 then 48 :: digits else digits
      else
        (if digits.length = 1 then 48 :: digits else digits) ++ 32 :: text2
    else fileName

/-- Go `strings.TrimSuffix(name, filepath.Ext(name))`: drop the extension
    beginning at the final dot, if any. -/
def dropExt (s : GoStr) : GoStr :=
  if s.contains 46 then ((s.reverse.dropWhile fun c => !(c == 46)).drop 1).reverse
  else s

/-! Section: Processor (`internal/processor/processor.go`) -/

/-- Go `ProcessOptions` (the fields the pipeline reads; `OutDir` and
    `Threads` only affect I/O and scheduling). -/
structure ProcessOptions where
  force : Bool
  forceAll : Bool
  updateEncoding : Bool
deriving DecidableEq

/-- Go `tagger.Metadata` (the textual fields plus year/track carried
    through unchanged). -/
structure Metadata where
  title : GoStr
  artist : GoStr
  album : GoStr
  year : Int
  genre : GoStr
  track : Int
deriving DecidableEq

/-- Go `Statistics`. -/
structure Statistics where
  total : Nat
  success : Nat
  failed : Nat
  encodingFixed : Nat
  tagsUpdated : Nat
  autoAlbums : Nat
  autoTitles : Nat
deriving DecidableEq

/-- The all-zero statistics record a fresh `Processor` starts with. -/
def zeroStats : Statistics :=
  { total := 0, success := 0, failed := 0, encodingFixed := 0, tagsUpdated := 0,
    autoAlbums := 0, autoTitles := 0 }

/-- Step 1 of `processMetadata` for one field: fix the encoding of a
    non-empty field, bumping `stats.EncodingFixed` under the lock when it
    changed. -/
def encFieldSt (C : ExtCodec) (f : GoStr) (st : Statistics) : GoStr × Statistics :=
  if f ≠ [] then
    let r := fixEncoding C f
    if r.2.2 then (r.1, { st with encodingFixed := st.encodingFixed + 1 })
    else (f, st)
  else (f, st)

/-- Step 1 of `processMetadata` over the three fields, in source order. -/
def encStage (C : ExtCodec) (m : Metadata) (st : Statistics) : Metadata × Statistics :=
  let t := encFieldSt C m.title st
  let a := encFieldSt C m.artist t.2
  let b := encFieldSt C m.album a.2
  ({ m with title := t.1, artist := a.1, album := b.1 }, b.2)

/-- Step 1.5 of `processMetadata`: clean each non-empty field
    (assignment under `cleaned != field` is the identity when equal). -/
def cleanStage (m : Metadata) : Metadata :=
  { m with
    title := if m.title ≠ [] then cleanTagText m.title else m.title
    artist := if m.artist ≠ [] then cleanTagText m.artist else m.artist
    album := if m.album ≠ [] then cleanTagText m.album else m.album }

/-- Step 2 of `processMetadata`: zero-pad a non-empty title, bumping
    `stats.AutoTitles` when it changed. -/
def padStage (m : Metadata) (st : Statistics) : Metadata × Statistics :=
  if m.title ≠ [] then
    let f := formatTitle m.title
    if f ≠ m.title then
      ({ m with title := f }, { st with autoTitles := st.autoTitles + 1 })
    else (m, st)
  else (m, st)

/-- Step 3 of `processMetadata`: fill title, album and artist from the
    filename stem and the parent-directory name when the current field is
    empty or garbled, or when both `Force` and `ForceAll` are set.  The
    title and album fills bump `AutoTitles` and `AutoAlbums`; the artist
    fill bumps nothing and, when the directory name contains `_` with an
    empty part before it, changes nothing. -/
def fallbackStage (o : ProcessOptions) (fileName dirName : GoStr)
    (m : Metadata) (st : Statistics) : Metadata × Statistics :=
  let shouldFillTitle := m.title = [] ∨ isGarbled m.title = true ∨
    (o.force = true ∧ o.forceAll = true)
  let p1 :=
    if shouldFillTitle ∧ fileName ≠ [] then
      ({ m with title := formatTitleFromFilename fileName },
        { st with autoTitles := st.autoTitles + 1 })
    else (m, st)
  let shouldFillAlbum := p1.1.album = [] ∨ isGarbled p1.1.album = true ∨
    (o.force = true ∧ o.forceAll = true)
  let p2 :=
    if shouldFillAlbum ∧ dirName ≠ [] ∧ dirName ≠ gostr r"." then
      ({ p1.1 with album := dirName },
        { p1.2 with autoAlbums := p1.2.autoAlbums + 1 })
    else p1
  let shouldFillArtist := p2.1.artist = [] ∨ isGarbled p2.1.artist = true ∨
    (o.force = true ∧ o.forceAll = true)
  if shouldFillArtist ∧ dirName ≠ [] ∧ dirName ≠ gostr r"." then
    if dirName.contains 95 then
      let part := dirName.takeWhile fun c => !(c == 95)
      if part ≠ [] then ({ p2.1 with artist := part }, p2.2) else p2
    else ({ p2.1 with artist := dirName }, p2.2)
  else p2

/-- Go `processMetadata`, with the processor's shared `Statistics` passed
    explicitly (the Go method mutates `p.stats` under `p.mu`): fix
    encodings, clean, zero-pad the title, then fill empty/garbled fields
    from the filename stem and directory name.  `fileBase` and `dirBase`
    are `filepath.Base(path)` and `filepath.Base(filepath.Dir(path))`; the
    final `UpdateEncoding && !Force` conditional of the source is an empty
    statement and contributes nothing. -/
def processMetadataSt (C : ExtCodec) (o : ProcessOptions) (meta : Metadata)
    (fileBase dirBase : GoStr) (st : Statistics) : Metadata × Statistics :=
  let p1 := encStage C meta st
  let m2 := cleanStage p1.1
  let p3 := padStage m2 p1.2
  let fileName := dropExt (convertPathToUTF8 C fileBase)
  let dirName := convertPathToUTF8 C dirBase
  fallbackStage o fileName dirName p3.1 p3.2

/-- The field a change event concerns. -/
inductive TagField where
  | title | artist | album
deriving DecidableEq

/-- The entries `fixFile` appends to its `changes` list, abstracted from
    their `fmt.Sprintf` strings. -/
inductive Change where
  | encFixed (f : TagField) (charset : GoStr)
  | stillGarbled (f : TagField)
  | cleanedField (f : TagField)
  | emptyAfterClean (f : TagField)
  | zeroPadded
  | fallbackTitle (v : GoStr)
  | fallbackAlbum (v : GoStr)
  | fallbackArtist (v : GoStr)
deriving DecidableEq

/-- Step 1 of `fixFile` for one non-empty field: attempt the encoding fix,
    record a change and count it when it changed, then record a
    still-garbled note on the updated value. -/
def fixFileEncField (C : ExtCodec) (fld : TagField) (f : GoStr) :
    GoStr × List Change × Nat :=
  if f ≠ [] then
    let r := fixEncoding C f
    let upd := if r.2.2 then (r.1, [Change.encFixed fld r.2.1], 1) else (f, ([] : List Change), 0)
    if isGarbled upd.1 then (upd.1, upd.2.1 ++ [Change.stillGarbled fld], upd.2.2)
    else upd
  else (f, [], 0)

/-- Step 1.5 of `fixFile` for the title and album: clean, record a change
    when it differs, and note when the result became empty (the artist
    branch has no emptiness note). -/
def fixFileCleanNoted (fld : TagField) (f : GoStr) : GoStr × List Change :=
  if f ≠ [] then
    let c := cleanTagText f
    let upd := if c ≠ f then (c, [Change.cleanedField fld]) else (f, ([] : List Change))
    if upd.1 = [] then (upd.1, upd.2 ++ [Change.emptyAfterClean fld]) else upd
  else (f, [])

/-- Step 1.5 of `fixFile` for the artist. -/
def fixFileCleanPlain (fld : TagField) (f : GoStr) : GoStr × List Change :=
  if f ≠ [] then
    let c := cleanTagText f
    if c ≠ f then (c, [Change.cleanedField fld]) else (f, [])
  else (f, [])

/-- The result of the pipeline part of `fixFile` (before the tag write):
    the new metadata, the ordered change list, and the local statistics
    ingredients folded into `p.stats` after a successful write. -/
structure FixFileOut where
  meta : Metadata
  changes : List Change
  encodingFixed : Nat
  autoAlbum : Bool
  autoTitle : Bool
deriving DecidableEq

/-- The pipeline part of Go `fixFile` (steps 1, 1.5, 2 and 3; the
    subsequent tag write and statistics fold are modelled separately).
    `fileBase` and `dirBase` are `filepath.Base(path)` and
    `filepath.Base(filepath.Dir(path))`. -/
def fixFilePipeline (C : ExtCodec) (o : ProcessOptions) (meta : Metadata)
    (fileBase dirBase : GoStr) : FixFileOut :=
  let t1 := fixFileEncField C TagField.title meta.title
  let a1 := fixFileEncField C TagField.artist meta.artist
  let b1 := fixFileEncField C TagField.album meta.album
  let encodingFixed := t1.2.2 + a1.2.2 + b1.2.2
  let t2 := fixFileCleanNoted TagField.title t1.1
  let a2 := fixFileCleanPlain TagField.artist a1.1
  let b2 := fixFileCleanNoted TagField.album b1.1
  let t3 :=
    if t2.1 ≠ [] then
      let f := formatTitle t2.1
      if f ≠ t2.1 then (f, [Change.zeroPadded], true) else (t2.1, ([] : List Change), false)
    else (t2.1, [], false)
  let fileName := dropExt (convertPathToUTF8 C fileBase)
  let dirName := convertPathToUTF8 C dirBase
  let shouldFillTitle := t3.1 = [] ∨ isGarbled t3.1 = true ∨
    (o.force = true ∧ o.forceAll = true)
  let t4 :=
    if shouldFillTitle ∧ fileName ≠ [] then
      let ft := formatTitleFromFilename fileName
      (ft, [Change.fallbackTitle ft], true)
    else (t3.1, [], t3.2.2)
  let shouldFillAlbum := b2.1 = [] ∨ isGarbled b2.1 = true ∨
    (o.force = true ∧ o.forceAll = true)
  let b4 :=
    if shouldFillAlbum ∧ dirName ≠ [] ∧ dirName ≠ gostr r"." then
      (dirName, [Change.fallbackAlbum dirName], true)
    else (b2.1, ([] : List Change), false)
  let shouldFillArtist := a2.1 = [] ∨ isGarbled a2.1 = true ∨
    (o.force = true ∧ o.forceAll = true)
  let a4 :=
    if shouldFillArtist ∧ dirName ≠ [] ∧ dirName ≠ gostr r"." then
      if dirName.contains 95 then
        let part := dirName.takeWhile fun c => !(c == 95)
        if part ≠ [] then (part, [Change.fallbackArtist part])
        else (a2.1, ([] : List Change))
      else (dirName, [Change.fallbackArtist dirName])
    else (a2.1, [])
  { meta :=
      { meta with title := t4.1, artist := a4.1, album := b4.1 }
    changes := t1.2.1 ++ a1.2.1 ++ b1.2.1 ++ t2.2 ++ a2.2 ++ b2.2 ++ t3.2.1 ++
      t4.2.1 ++ b4.2.1 ++ a4.2
    encodingFixed := encodingFixed
    autoAlbum := b4.2.2
    autoTitle := t4.2.2 }

/-! Section: Tag writer (`internal/writer/writer.go`) -/

/-- An ID3v2 tag as the writer observes it: the five framed text fields it
    sets, the appended comment frames, and all other frames (which
    `id3v2.Open` parses and `Save` writes back untouched). -/
structure Id3Tag where
  title : GoStr
  artist : GoStr
  album : GoStr
  year : GoStr
  genre : GoStr
  comments : List GoStr
  others : List (GoStr × GoStr)
deriving DecidableEq

/-- Go `writer.TagData`. -/
structure TagData where
  title : GoStr
  artist : GoStr
  album : GoStr
  year : GoStr
  genre : GoStr
  track : GoStr
  comment : GoStr
deriving DecidableEq

/-- Go `TagWriter.SetTitle`: sets the title frame only when non-empty. -/
def setTitleW (t : GoStr) (tag : Id3Tag) : Id3Tag :=
  if t ≠ [] then { tag with title := t } else tag

/-- Go `TagWriter.SetArtist`. -/
def setArtistW (a : GoStr) (tag : Id3Tag) : Id3Tag :=
  if a ≠ [] then { tag with artist := a } else tag

/-- Go `TagWriter.SetAlbum`. -/
def setAlbumW (a : GoStr) (tag : Id3Tag) : Id3Tag :=
  if a ≠ [] then { tag with album := a } else tag

/-- Go `TagWriter.SetYear`. -/
def setYearW (y : GoStr) (tag : Id3Tag) : Id3Tag :=
  if y ≠ [] then { tag with year := y } else tag

/-- Go `TagWriter.SetGenre`. -/
def setGenreW (g : GoStr) (tag : Id3Tag) : Id3Tag :=
  if g ≠ [] then { tag with genre := g } else tag

/-- Go `TagWriter.SetComment`: appends a comment frame when non-empty. -/
def setCommentW (c : GoStr) (tag : Id3Tag) : Id3Tag :=
  if c ≠ [] then { tag with comments := tag.comments ++ [c] } else tag

/-- Go `TagWriter.SetAllTags`: each field is set only when non-empty (the
    double guard of `SetAllTags` and the individual setters). -/
def setAllTags (d : TagData) (tag : Id3Tag) : Id3Tag :=
  let t1 := if d.title ≠ [] then setTitleW d.title tag else tag
  let t2 := if d.artist ≠ [] then setArtistW d.artist t1 else t1
  let t3 := if d.album ≠ [] then setAlbumW d.album t2 else t2
  let t4 := if d.year ≠ [] then setYearW d.year t3 else t3
  let t5 := if d.genre ≠ [] then setGenreW d.genre t4 else t4
  if d.comment ≠ [] then setCommentW d.comment t5 else t5

/-- Go `writer.WriteTagsToFile`: open and parse the existing tag of the
    file, apply `SetAllTags`, save.  The on-disk tag before the call is
    `onDisk`; the result is the tag after the save. -/
def writeTagsToFile (d : TagData) (onDisk : Id3Tag) : Id3Tag := setAllTags d onDisk

/-! Section: batch coordinator (`ProcessFiles`).

`ProcessFiles` sets `stats.Total`, sends every file once into a buffered
`jobs` channel, runs `threads` workers that each drain jobs and send one
`error` result per job into `results`, waits for all workers, closes the
channels and folds `results` into Success/Failed.  Channel semantics
deliver every sent job to exactly one worker, and with at least one worker
every job is processed, so the multiset of collected results is exactly
one boolean outcome per file; the model quantifies over the partition of
the files among workers and over the collection order. -/

/-- The result-collection loop of `ProcessFiles`: one `Success` or
    `Failed` increment per collected result. -/
def collectResults : List Bool → Statistics → Statistics
  | [], st => st
  | ok :: rest, st =>
    collectResults rest
      (if ok then { st with success := st.success + 1 }
       else { st with failed := st.failed + 1 })

/-- Go `ProcessFiles` as observed through the statistics: `Total` is set to
    the file count up front, then the collected per-file outcomes are
    folded. -/
def processFilesStats (numFiles : Nat) (rs : List Bool) : Statistics :=
  collectResults rs { zeroStats with total := numFiles }

/-! Section: proofs — supporting lemmas followed by the claim theorems. -/

theorem decodeOne_snd_le (b : Nat) (rest : List Nat) : (decodeOne b rest).2 ≤ rest.length := by
  unfold decodeOne
  split_ifs <;> (try split) <;> (try split_ifs) <;> simp

theorem utf8DecodeGo_fuel (f1 : Nat) : ∀ (f2 : Nat) (s : List Nat),
    s.length ≤ f1 → s.length ≤ f2 → utf8DecodeGo f1 s = utf8DecodeGo f2 s := by
  induction f1 with
  | zero =>
    intro f2 s h1 _
    cases s with
    | nil => cases f2 <;> rfl
    | cons b rest => simp at h1
  | succ g ih =>
    intro f2 s h1 h2
    cases s with
    | nil => cases f2 <;> rfl
    | cons b rest =>
      cases f2 with
      | zero => simp at h2
      | succ g2 =>
        simp only [utf8DecodeGo]
        congr 1
        apply ih
        · simp only [List.length_drop, List.length_cons] at *
          omega
        · simp only [List.length_drop, List.length_cons] at *
          omega

/-- Decoding one encoded scalar at the head of a byte stream recovers it. -/
theorem utf8Decode_encodeChar (r : Nat) (h : validScalar r) (bs : List Nat) :
    utf8Decode (utf8EncodeChar r ++ bs) = r :: utf8Decode bs := by
  obtain ⟨h1, h2⟩ := h
  by_cases hc1 : r < 0x80
  · simp only [utf8Decode, utf8EncodeChar, if_pos hc1, List.cons_append, List.nil_append,
      List.length_cons, utf8DecodeGo]
    rw [show decodeOne r bs = (r, 0) by simp [decodeOne, hc1]]
    rfl
  · by_cases hc2 : r < 0x800
    · simp only [utf8Decode, utf8EncodeChar, if_neg hc1, if_pos hc2, List.cons_append,
        List.nil_append, List.length_cons, utf8DecodeGo]
      rw [show decodeOne (0xC0 + r / 64) ((0x80 + r % 64) :: bs) =
          (r, 1) from ?_]
      · simp only [List.drop_succ_cons, List.drop_zero]
        rw [utf8DecodeGo_fuel _ bs.length bs (by omega) le_rfl]
      · unfold decodeOne
        rw [if_neg (by omega), if_pos (by omega)]
        dsimp only
        rw [if_pos (by simp only [isCont, decide_eq_true_eq]; omega)]
        refine Prod.ext ?_ rfl
        simp only
        omega
    · by_cases hc3 : r < 0x10000
      · simp only [utf8Decode, utf8EncodeChar, if_neg hc1, if_neg hc2, if_pos hc3,
          List.cons_append, List.nil_append, List.length_cons, utf8DecodeGo]
        rw [show decodeOne (0xE0 + r / 4096) ((0x80 + r / 64 % 64) :: (0x80 + r % 64) :: bs) =
            (r, 2) from ?_]
        · simp only [List.drop_succ_cons, List.drop_zero]
          rw [utf8DecodeGo_fuel _ bs.length bs (by omega) le_rfl]
        · unfold decodeOne
          rw [if_neg (by omega), if_neg (by omega), if_pos (by omega)]
          dsimp only
          rw [if_pos ?_]
          · refine Prod.ext ?_ rfl
            simp only
            omega
          · constructor
            · unfold sndOk3
              by_cases he0 : 0xE0 + r / 4096 = 0xE0
              · rw [if_pos he0]
                simp only [decide_eq_true_eq]
                omega
              · rw [if_neg he0]
                by_cases hed : 0xE0 + r / 4096 = 0xED
                · rw [if_pos hed]
                  simp only [decide_eq_true_eq]
                  omega
                · rw [if_neg hed]
                  simp only [decide_eq_true_eq]
                  omega
            · simp only [isCont, decide_eq_true_eq]
              omega
      · simp only [utf8Decode, utf8EncodeChar, if_neg hc1, if_neg hc2, if_neg hc3,
          List.cons_append, List.nil_append, List.length_cons, utf8DecodeGo]
        rw [show decodeOne (0xF0 + r / 262144)
            ((0x80 + r / 4096 % 64) :: (0x80 + r / 64 % 64) :: (0x80 + r % 64) :: bs) =
            (r, 3) from ?_]
        · simp only [List.drop_succ_cons, List.drop_zero]
          rw [utf8DecodeGo_fuel _ bs.length bs (by omega) le_rfl]
        · unfold decodeOne
          rw [if_neg (by omega), if_neg (by omega), if_neg (by omega), if_pos (by omega)]
          dsimp only
          rw [if_pos ?_]
          · refine Prod.ext ?_ rfl
            simp only
            omega
          · refine ⟨?_, by simp only [isCont, decide_eq_true_eq]; omega,
              by simp only [isCont, decide_eq_true_eq]; omega⟩
            unfold sndOk4
            by_cases hf0 : 0xF0 + r / 262144 = 0xF0
            · rw [if_pos hf0]
              simp only [decide_eq_true_eq]
              omega
            · rw [if_neg hf0]
              by_cases hf4 : 0xF0 + r / 262144 = 0xF4
              · rw [if_pos hf4]
                simp only [decide_eq_true_eq]
                omega
              · rw [if_neg hf4]
                simp only [decide_eq_true_eq]
                omega

/-- UTF-8 round trip: decoding the encoding of a valid scalar sequence is the identity. -/
theorem utf8Decode_encode (s : GoStr) (h : ∀ r ∈ s, validScalar r) :
    utf8Decode (utf8Encode s) = s := by
  induction s with
  | nil => rfl
  | cons r t ih =>
    have he : utf8Encode (r :: t) = utf8EncodeChar r ++ utf8Encode t := by
      simp [utf8Encode]
    rw [he, utf8Decode_encodeChar r (h r (by simp)) _,
      ih (fun x hx => h x (by simp [hx]))]

/-- Every byte the encoder emits fits in one byte. -/
theorem utf8EncodeChar_le255 (r : Nat) (h : validScalar r) :
    ∀ b ∈ utf8EncodeChar r, b ≤ 255 := by
  obtain ⟨h1, _⟩ := h
  intro b hb
  unfold utf8EncodeChar at hb
  split at hb
  · simp at hb
    omega
  · split at hb
    · simp at hb
      rcases hb with hb | hb <;> omega
    · split at hb
      · simp at hb
        rcases hb with hb | hb | hb <;> omega
      · simp at hb
        rcases hb with hb | hb | hb | hb <;> omega

/-- Byte strings of valid scalars consist of bytes. -/
theorem utf8Encode_le255 (s : GoStr) (h : ∀ r ∈ s, validScalar r) :
    ∀ b ∈ utf8Encode s, b ≤ 255 := by
  intro b hb
  simp only [utf8Encode, List.mem_flatMap] at hb
  obtain ⟨r, hr, hbr⟩ := hb
  exact utf8EncodeChar_le255 r (h r hr) b hbr

/-- The encoder emits at least one byte per scalar. -/
theorem utf8Encode_eq_nil (s : GoStr) : utf8Encode s = [] ↔ s = [] := by
  constructor
  · intro he
    cases s with
    | nil => rfl
    | cons r t =>
      exfalso
      have h0 : utf8EncodeChar r ++ utf8Encode t = [] := by simpa [utf8Encode] using he
      have hne : utf8EncodeChar r ≠ [] := by
        unfold utf8EncodeChar
        split
        · simp
        · split
          · simp
          · split <;> simp
      rw [List.append_eq_nil] at h0
      exact hne h0.1
  · intro hs
    simp [hs, utf8Encode]

/-- On a UTF-8 charset label the conversion is the identity. -/
theorem convertToUTF8_utf8 (C : ExtCodec) (s : GoStr) (hs : s ≠ []) :
    convertToUTF8 C s (gostr r"UTF-8") = (s, false) := by
  unfold convertToUTF8
  rw [if_neg hs, if_pos (Or.inl rfl)]

/-- When `FixEncoding` reports no change it returns its input text. -/
theorem fixEncoding_not_changed (C : ExtCodec) (s : GoStr)
    (h : (fixEncoding C s).2.2 = false) : (fixEncoding C s).1 = s := by
  unfold fixEncoding at *
  by_cases hs : s = []
  · simp only [if_pos hs] at h ⊢
    exact hs.symm
  · simp only [if_neg hs] at h ⊢
    rcases hfd : fixDoubleEncoding s with ⟨f, fl⟩
    cases fl with
    | true => simp [hfd] at h
    | false =>
      simp only [hfd] at h ⊢
      rcases hc : convertStringToUTF8 C s with ⟨u, cs, err⟩
      simp only [hc] at h ⊢
      cases err with
      | true => simp
      | false =>
        simp only [Bool.false_eq_true, if_false] at h ⊢
        simp only [Bool.and_eq_false_iff, decide_eq_false_iff_not, not_not] at h
        rcases h with h | h
        · unfold convertStringToUTF8 at hc
          rcases hd : detectEncoding C (utf8Encode s) with _ | cs0
          · rw [hd] at hc
            simp only [Prod.mk.injEq] at hc
            exact absurd hc.2.2.symm (by simp)
          · rw [hd] at hc
            simp only [Prod.mk.injEq] at hc
            obtain ⟨hu, hcs, herr⟩ := hc
            rw [h] at hcs
            rw [hcs] at herr hu
            rw [convertToUTF8_utf8 C s hs] at herr hu
            simp only [Bool.false_eq_true, if_false] at hu
            exact hu.symm
        · exact h

theorem collectResults_total (rs : List Bool) : ∀ st : Statistics,
    (collectResults rs st).total = st.total := by
  induction rs with
  | nil => intro st; rfl
  | cons ok rest ih =>
    intro st
    cases ok <;> simp [collectResults, ih]

theorem collectResults_counts (rs : List Bool) : ∀ st : Statistics,
    (collectResults rs st).success + (collectResults rs st).failed =
      st.success + st.failed + rs.length := by
  induction rs with
  | nil => intro st; simp [collectResults]
  | cons ok rest ih =>
    intro st
    cases ok <;> (simp [collectResults, ih]; omega)

theorem encFieldSt_fst_indep (C : ExtCodec) (f : GoStr) (st st' : Statistics) :
    (encFieldSt C f st).1 = (encFieldSt C f st').1 := by
  simp only [encFieldSt, apply_ite Prod.fst]

theorem encFieldSt_keeps (C : ExtCodec) (f : GoStr) (st : Statistics) :
    (encFieldSt C f st).2.total = st.total ∧
    (encFieldSt C f st).2.success = st.success ∧
    (encFieldSt C f st).2.failed = st.failed ∧
    (encFieldSt C f st).2.tagsUpdated = st.tagsUpdated := by
  simp only [encFieldSt, apply_ite Prod.snd, apply_ite Statistics.total,
    apply_ite Statistics.success, apply_ite Statistics.failed,
    apply_ite Statistics.tagsUpdated, ite_self]
  refine ⟨?_, ?_, ?_, ?_⟩ <;> first | rfl | trivial

theorem encStage_fst_indep (C : ExtCodec) (m : Metadata) (st st' : Statistics) :
    (encStage C m st).1 = (encStage C m st').1 := by
  unfold encStage
  simp only
  rw [encFieldSt_fst_indep C m.title st st',
    encFieldSt_fst_indep C m.artist (encFieldSt C m.title st).2 (encFieldSt C m.title st').2,
    encFieldSt_fst_indep C m.album (encFieldSt C m.artist (encFieldSt C m.title st).2).2
      (encFieldSt C m.artist (encFieldSt C m.title st').2).2]

theorem encStage_keeps (C : ExtCodec) (m : Metadata) (st : Statistics) :
    (encStage C m st).2.total = st.total ∧
    (encStage C m st).2.success = st.success ∧
    (encStage C m st).2.failed = st.failed ∧
    (encStage C m st).2.tagsUpdated = st.tagsUpdated := by
  unfold encStage
  simp only
  obtain ⟨a1, a2, a3, a4⟩ := encFieldSt_keeps C m.title st
  obtain ⟨b1, b2, b3, b4⟩ := encFieldSt_keeps C m.artist (encFieldSt C m.title st).2
  obtain ⟨c1, c2, c3, c4⟩ :=
    encFieldSt_keeps C m.album (encFieldSt C m.artist (encFieldSt C m.title st).2).2
  exact ⟨by omega, by omega, by omega, by omega⟩

theorem padStage_fst_indep (m : Metadata) (st st' : Statistics) :
    (padStage m st).1 = (padStage m st').1 := by
  simp only [padStage, apply_ite Prod.fst]

theorem padStage_keeps (m : Metadata) (st : Statistics) :
    (padStage m st).2.total = st.total ∧
    (padStage m st).2.success = st.success ∧
    (padStage m st).2.failed = st.failed ∧
    (padStage m st).2.tagsUpdated = st.tagsUpdated := by
  simp only [padStage, apply_ite Prod.snd, apply_ite Statistics.total,
    apply_ite Statistics.success, apply_ite Statistics.failed,
    apply_ite Statistics.tagsUpdated, ite_self]
  refine ⟨?_, ?_, ?_, ?_⟩ <;> first | rfl | trivial

theorem fallbackStage_fst_indep (o : ProcessOptions) (fn dn : GoStr) (m : Metadata)
    (st st' : Statistics) :
    (fallbackStage o fn dn m st).1 = (fallbackStage o fn dn m st').1 := by
  simp only [fallbackStage, apply_ite Prod.fst, apply_ite Prod.snd,
    apply_ite Metadata.album, apply_ite Metadata.artist, ite_self]

theorem fallbackStage_keeps (o : ProcessOptions) (fn dn : GoStr) (m : Metadata)
    (st : Statistics) :
    (fallbackStage o fn dn m st).2.total = st.total ∧
    (fallbackStage o fn dn m st).2.success = st.success ∧
    (fallbackStage o fn dn m st).2.failed = st.failed ∧
    (fallbackStage o fn dn m st).2.tagsUpdated = st.tagsUpdated := by
  simp only [fallbackStage, apply_ite Prod.fst, apply_ite Prod.snd,
    apply_ite Metadata.album, apply_ite Metadata.artist, apply_ite Statistics.total,
    apply_ite Statistics.success, apply_ite Statistics.failed,
    apply_ite Statistics.tagsUpdated, ite_self]
  refine ⟨?_, ?_, ?_, ?_⟩ <;> first | rfl | trivial

/-- C1: for every file list of length N and every thread count at least 1,
    after `ProcessFiles` returns the statistics satisfy `Total = N` and
    `Success + Failed = N`: the workers take each dispatched job exactly
    once (`parts` is the partition of the files among the `threads`
    workers), one boolean outcome per file is collected in some order
    (`rs`), per-file failures only increment `Failed`, and the aggregate
    is produced once from that fold. -/
theorem c1_batch_accounting {α : Type} (files : List α) (outcome : α → Bool)
    (threads : Nat) (parts : List (List α)) (rs : List Bool)
    (_hthreads : 1 ≤ threads) (_hparts : parts.length = threads)
    (hcover : parts.flatten.Perm files)
    (hres : rs.Perm (parts.flatten.map outcome)) :
    (processFilesStats files.length rs).total = files.length ∧
    (processFilesStats files.length rs).success +
      (processFilesStats files.length rs).failed = files.length := by
  constructor
  · rw [processFilesStats, collectResults_total]
  · rw [processFilesStats, collectResults_counts]
    have h1 : rs.length = (parts.flatten.map outcome).length := hres.length_eq
    have h2 : parts.flatten.length = files.length := hcover.length_eq
    simp only [List.length_map] at h1
    simp [zeroStats]
    omega

/-- Witness for C1 at a concrete batch: three files, two worker threads,
    one failing file. -/
theorem c1_batch_accounting_witness :
    (processFilesStats ([10, 11, 12] : List Nat).length [true, false, true]).total = 3 ∧
    (processFilesStats ([10, 11, 12] : List Nat).length [true, false, true]).success +
      (processFilesStats ([10, 11, 12] : List Nat).length [true, false, true]).failed = 3 :=
  c1_batch_accounting [10, 11, 12] (fun n => decide (n % 2 = 0)) 2 [[10, 12], [11]]
    [true, false, true] (by decide) (by decide) (by decide) (by decide)

/-- C2 counterexample: the pipeline `processMetadata` itself mutates the
    shared statistics — zero-padding the title of this record increments
    `AutoTitles` inside the pipeline call, so the statistics state after
    the call differs from the state before it. -/
theorem c2_counterexample :
    (processMetadataSt trivialCodec ⟨false, false, false⟩
      ⟨gostr r"1 Song", gostr r"A", gostr r"B", 0, [], 0⟩
      (gostr r"f.mp3") (gostr r"d") zeroStats).2.autoTitles = 1 ∧
    (processMetadataSt trivialCodec ⟨false, false, false⟩
      ⟨gostr r"1 Song", gostr r"A", gostr r"B", 0, [], 0⟩
      (gostr r"f.mp3") (gostr r"d") zeroStats).2 ≠ zeroStats := by
  decide

/-- C2 as the code has it: the record part of `processMetadata` is a pure
    function of (record, options, filename, directory) — it does not read
    the shared counters — and the pipeline call never touches `Total`,
    `Success`, `Failed` or `TagsUpdated` (those are updated only by the
    coordinator and the worker after the call returns); but
    `EncodingFixed`, `AutoTitles` and `AutoAlbums` are incremented inside
    the pipeline itself, under the processor lock. -/
theorem c2_pipeline_state (C : ExtCodec) (o : ProcessOptions) (meta : Metadata)
    (fb db : GoStr) (st st' : Statistics) :
    (processMetadataSt C o meta fb db st).1 = (processMetadataSt C o meta fb db st').1 ∧
    (processMetadataSt C o meta fb db st).2.total = st.total ∧
    (processMetadataSt C o meta fb db st).2.success = st.success ∧
    (processMetadataSt C o meta fb db st).2.failed = st.failed ∧
    (processMetadataSt C o meta fb db st).2.tagsUpdated = st.tagsUpdated := by
  constructor
  · unfold processMetadataSt
    simp only
    rw [encStage_fst_indep C meta st st']
    rw [padStage_fst_indep (cleanStage (encStage C meta st').1) (encStage C meta st).2
      (encStage C meta st').2]
    exact fallbackStage_fst_indep _ _ _ _ _ _
  · unfold processMetadataSt
    simp only
    obtain ⟨e1, e2, e3, e4⟩ := encStage_keeps C meta st
    obtain ⟨p1, p2, p3, p4⟩ :=
      padStage_keeps (cleanStage (encStage C meta st).1) (encStage C meta st).2
    obtain ⟨f1, f2, f3, f4⟩ := fallbackStage_keeps o
      (dropExt (convertPathToUTF8 C fb)) (convertPathToUTF8 C db)
      (padStage (cleanStage (encStage C meta st).1) (encStage C meta st).2).1
      (padStage (cleanStage (encStage C meta st).1) (encStage C meta st).2).2
    exact ⟨by omega, by omega, by omega, by omega⟩

/-- C3: `IsGarbled` holds exactly when one of the four threshold
    conditions over the code-point counts holds; the empty string is never
    garbled; a string with more than 10 percent question marks is garbled;
    a quarter-Latin-1-extended otherwise plain-ASCII string is garbled; a
    plain ASCII/CJK string with none of the tracked problem characters is
    not garbled. -/
theorem c3_garbled_thresholds :
    (∀ s : GoStr, s ≠ [] →
      (isGarbled s = true ↔
        (10 * qmCount s > s.length ∨
         5 * (qmCount s + replCount s + invalidCount s + unusualCount s + latin1Count s) >
           s.length ∨
         (0 < qmCount s ∧ (0 < unusualCount s ∨ 0 < latin1Count s) ∧
           10 * (qmCount s + unusualCount s + latin1Count s) > 2 * s.length) ∨
         10 * latin1Count s > 3 * s.length))) ∧
    isGarbled [] = false ∧
    (∀ s : GoStr, 10 * qmCount s > s.length → isGarbled s = true) ∧
    (∀ s : GoStr, s ≠ [] →
      (∀ r ∈ s, (0x20 ≤ r ∧ r ≤ 0x7E ∧ r ≠ 63) ∨ (0xA1 ≤ r ∧ r ≤ 0xFF)) →
      4 * latin1Count s = s.length → isGarbled s = true) ∧
    (∀ s : GoStr,
      (∀ r ∈ s, (0x20 ≤ r ∧ r ≤ 0x7E ∧ r ≠ 63) ∨ (0x4E00 ≤ r ∧ r ≤ 0x9FFF) ∨
        (0x3000 ≤ r ∧ r ≤ 0x303F)) →
      isGarbled s = false) := by
  have hiff : ∀ s : GoStr, s ≠ [] →
      (isGarbled s = true ↔
        (10 * qmCount s > s.length ∨
         5 * (qmCount s + replCount s + invalidCount s + unusualCount s + latin1Count s) >
           s.length ∨
         (0 < qmCount s ∧ (0 < unusualCount s ∨ 0 < latin1Count s) ∧
           10 * (qmCount s + unusualCount s + latin1Count s) > 2 * s.length) ∨
         10 * latin1Count s > 3 * s.length)) := by
    intro s hs
    have hn : s.length ≠ 0 := by
      simpa [List.length_eq_zero] using hs
    unfold isGarbled
    rw [if_neg hs]
    simp only
    rw [if_neg hn]
    split_ifs with h1 h2 h3 h4 <;> simp_all
  refine ⟨hiff, rfl, ?_, ?_, ?_⟩
  · intro s h
    by_cases hs : s = []
    · subst hs
      simp [qmCount] at h
    · exact (hiff s hs).2 (Or.inl h)
  · intro s hs hchars hquarter
    have hn : 0 < s.length := List.length_pos.2 hs
    refine (hiff s hs).2 (Or.inr (Or.inl ?_))
    omega
  · intro s hchars
    by_cases hs : s = []
    · subst hs; rfl
    · have hq : qmCount s = 0 := by
        rw [qmCount, List.countP_eq_zero]
        intro r hr
        rcases hchars r hr with ⟨u1, u2, u3⟩ | ⟨u1, u2⟩ | ⟨u1, u2⟩ <;>
          simp only [beq_iff_eq] <;> omega
      have hrep : replCount s = 0 := by
        rw [replCount, List.countP_eq_zero]
        intro r hr
        rcases hchars r hr with ⟨u1, u2, u3⟩ | ⟨u1, u2⟩ | ⟨u1, u2⟩ <;>
          simp only [beq_iff_eq] <;> omega
      have hinv : invalidCount s = 0 := by
        rw [invalidCount, List.countP_eq_zero]
        intro r hr
        rcases hchars r hr with ⟨u1, u2, u3⟩ | ⟨u1, u2⟩ | ⟨u1, u2⟩ <;>
          simp only [Bool.or_eq_true, decide_eq_true_eq, not_or] <;>
          constructor <;> omega
      have huns : unusualCount s = 0 := by
        rw [unusualCount, List.countP_eq_zero]
        intro r hr
        rcases hchars r hr with ⟨u1, u2, u3⟩ | ⟨u1, u2⟩ | ⟨u1, u2⟩ <;>
          simp only [Bool.or_eq_true, Bool.and_eq_true, decide_eq_true_eq, beq_iff_eq,
            Bool.not_eq_eq_eq_not, Bool.not_true, beq_eq_false_iff_ne, Ne, not_or,
            not_and] <;>
          refine ⟨⟨⟨?_, ?_⟩, ?_⟩, ?_⟩ <;> omega
      have hlat : latin1Count s = 0 := by
        rw [latin1Count, List.countP_eq_zero]
        intro r hr
        rcases hchars r hr with ⟨u1, u2, u3⟩ | ⟨u1, u2⟩ | ⟨u1, u2⟩ <;>
          simp only [Bool.and_eq_true, decide_eq_true_eq, Bool.not_eq_eq_eq_not,
            Bool.not_true, beq_eq_false_iff_ne, Ne, not_and] <;> omega
      have hn : 0 < s.length := List.length_pos.2 hs
      have : ¬ (isGarbled s = true) := by
        rw [hiff s hs]
        push_neg
        refine ⟨by omega, by omega, ?_, by omega⟩
        intro _ _
        omega
      simpa using this

/-- Witness for C3: a string with two question marks among nine characters
    is garbled, and a plain ASCII/CJK string is not. -/
theorem c3_garbled_thresholds_witness :
    isGarbled (gostr r"??abcdefg") = true ∧ isGarbled (gostr r"ab一") = false :=
  ⟨c3_garbled_thresholds.2.2.1 (gostr r"??abcdefg") (by decide),
   c3_garbled_thresholds.2.2.2.2 (gostr r"ab一") (by decide)⟩

/-- C4: re-interpreting the UTF-8 bytes of a CJK-containing string as
    single code points and feeding them to `FixDoubleEncoding` returns
    exactly the original string with a match; and `FixDoubleEncoding`
    reports no match — returning its input unchanged — whenever a code
    point exceeds 255 or the byte re-interpretation decodes to no CJK
    code point. -/
theorem c4_double_encoding_roundtrip :
    (∀ s : GoStr, (∀ r ∈ s, validScalar r) → isValidUTF8WithChinese s = true →
      fixDoubleEncoding (utf8Encode s) = (s, true)) ∧
    (∀ s : GoStr, (∃ r ∈ s, 255 < r) → fixDoubleEncoding s = (s, false)) ∧
    (∀ s : GoStr, (∀ r ∈ s, r ≤ 255) → isValidUTF8WithChinese (utf8Decode s) = false →
      fixDoubleEncoding s = (s, false)) := by
  refine ⟨?_, ?_, ?_⟩
  · intro s hv hc
    have hsne : s ≠ [] := by
      intro h
      subst h
      simp [isValidUTF8WithChinese] at hc
    have hne : utf8Encode s ≠ [] := by
      rw [Ne, utf8Encode_eq_nil]
      exact hsne
    have hall : (utf8Encode s).all (fun r => decide (r ≤ 255)) = true := by
      rw [List.all_eq_true]
      intro b hb
      simpa using utf8Encode_le255 s hv b hb
    unfold fixDoubleEncoding
    rw [if_neg hne, if_pos hall]
    simp only [utf8Decode_encode s hv, hc, if_pos]
  · intro s hex
    obtain ⟨r, hr, hgt⟩ := hex
    have hsne : s ≠ [] := List.ne_nil_of_mem hr
    have hnall : ¬ (s.all (fun r => decide (r ≤ 255)) = true) := by
      rw [List.all_eq_true]
      push_neg
      exact ⟨r, hr, by simpa using hgt⟩
    unfold fixDoubleEncoding
    rw [if_neg hsne, if_neg hnall]
  · intro s hle hnc
    by_cases hs : s = []
    · subst hs
      rfl
    · have hall : s.all (fun r => decide (r ≤ 255)) = true := by
        rw [List.all_eq_true]
        intro r hr
        simpa using hle r hr
      unfold fixDoubleEncoding
      rw [if_neg hs, if_pos hall]
      simp only [hnc, Bool.false_eq_true, if_false]

/-- Witness for C4 on a one-ideograph string, a supra-byte code point and
    a CJK-free byte string. -/
theorem c4_double_encoding_roundtrip_witness :
    fixDoubleEncoding (utf8Encode (gostr r"一")) = (gostr r"一", true) ∧
    fixDoubleEncoding [0x4E00] = ([0x4E00], false) ∧
    fixDoubleEncoding (gostr r"abc") = (gostr r"abc", false) :=
  ⟨c4_double_encoding_roundtrip.1 (gostr r"一") (by decide) (by decide),
   c4_double_encoding_roundtrip.2.1 [0x4E00] ⟨0x4E00, by decide, by decide⟩,
   c4_double_encoding_roundtrip.2.2 (gostr r"abc") (by decide) (by decide)⟩

theorem padStage_album (m : Metadata) (st : Statistics) :
    (padStage m st).1.album = m.album := by
  simp only [padStage, apply_ite Prod.fst, apply_ite Metadata.album, ite_self]

theorem padStage_artist (m : Metadata) (st : Statistics) :
    (padStage m st).1.artist = m.artist := by
  simp only [padStage, apply_ite Prod.fst, apply_ite Metadata.artist, ite_self]

theorem fallbackStage_title (o : ProcessOptions) (fn dn : GoStr) (m : Metadata)
    (st : Statistics) :
    (fallbackStage o fn dn m st).1.title =
      if (m.title = [] ∨ isGarbled m.title = true ∨ (o.force = true ∧ o.forceAll = true)) ∧
          fn ≠ [] then
        formatTitleFromFilename fn
      else m.title := by
  simp only [fallbackStage, apply_ite Prod.fst, apply_ite Metadata.title, ite_self]

theorem fallbackStage_album (o : ProcessOptions) (fn dn : GoStr) (m : Metadata)
    (st : Statistics) :
    (fallbackStage o fn dn m st).1.album =
      if (m.album = [] ∨ isGarbled m.album = true ∨ (o.force = true ∧ o.forceAll = true)) ∧
          dn ≠ [] ∧ dn ≠ gostr r"." then
        dn
      else m.album := by
  simp only [fallbackStage, apply_ite Prod.fst, apply_ite Metadata.album, ite_self]

theorem fallbackStage_artist (o : ProcessOptions) (fn dn : GoStr) (m : Metadata)
    (st : Statistics) :
    (fallbackStage o fn dn m st).1.artist =
      if (m.artist = [] ∨ isGarbled m.artist = true ∨ (o.force = true ∧ o.forceAll = true)) ∧
          dn ≠ [] ∧ dn ≠ gostr r"." then
        if dn.contains 95 then
          if dn.takeWhile (fun c => !(c == 95)) ≠ [] then dn.takeWhile (fun c => !(c == 95))
          else m.artist
        else dn
      else m.artist := by
  simp only [fallbackStage, apply_ite Prod.fst, apply_ite Metadata.artist, ite_self]

/-- C5 counterexample for the claim as stated: for this record the
    post-cleanup title "1 bcdefg?" is garbled (one `?` among nine runes)
    and the filename stem is usable, so the claim demands the fallback to
    overwrite the title — but the code tests the post-zero-padding value
    "01 bcdefg?" (one `?` among ten runes, not garbled) and leaves the
    title alone. -/
theorem c5_counterexample :
    isGarbled (cleanStage (encStage trivialCodec
        ⟨gostr r"1 bcdefg?", gostr r"A", gostr r"B", 0, [], 0⟩ zeroStats).1).title = true ∧
    dropExt (convertPathToUTF8 trivialCodec (gostr r"x")) ≠ [] ∧
    (processMetadataSt trivialCodec ⟨false, false, false⟩
        ⟨gostr r"1 bcdefg?", gostr r"A", gostr r"B", 0, [], 0⟩
        (gostr r"x") (gostr r"d") zeroStats).1.title ≠
      formatTitleFromFilename (dropExt (convertPathToUTF8 trivialCodec (gostr r"x"))) := by
  decide

/-- C5 as the code has it: the fallback overwrites each field exactly when
    the field's value at the fallback step — the post-zero-padding value
    for the title, the post-cleanup value for album and artist — is empty,
    or garbled, or both force options are set, and only when the
    derivation source is usable (non-empty stem for the title; directory
    name non-empty and not "." for album/artist, the artist taking the
    part before the first underscore only when that part is non-empty and
    keeping its old value when it is empty). -/
theorem c5_fallback_condition (C : ExtCodec) (o : ProcessOptions) (meta : Metadata)
    (fb db : GoStr) (st : Statistics) :
    (processMetadataSt C o meta fb db st).1.title =
      (if ((padStage (cleanStage (encStage C meta st).1) (encStage C meta st).2).1.title = [] ∨
            isGarbled (padStage (cleanStage (encStage C meta st).1)
              (encStage C meta st).2).1.title = true ∨
            (o.force = true ∧ o.forceAll = true)) ∧
          dropExt (convertPathToUTF8 C fb) ≠ [] then
        formatTitleFromFilename (dropExt (convertPathToUTF8 C fb))
      else (padStage (cleanStage (encStage C meta st).1) (encStage C meta st).2).1.title) ∧
    (processMetadataSt C o meta fb db st).1.album =
      (if ((cleanStage (encStage C meta st).1).album = [] ∨
            isGarbled (cleanStage (encStage C meta st).1).album = true ∨
            (o.force = true ∧ o.forceAll = true)) ∧
          convertPathToUTF8 C db ≠ [] ∧ convertPathToUTF8 C db ≠ gostr r"." then
        convertPathToUTF8 C db
      else (cleanStage (encStage C meta st).1).album) ∧
    (processMetadataSt C o meta fb db st).1.artist =
      (if ((cleanStage (encStage C meta st).1).artist = [] ∨
            isGarbled (cleanStage (encStage C meta st).1).artist = true ∨
            (o.force = true ∧ o.forceAll = true)) ∧
          convertPathToUTF8 C db ≠ [] ∧ convertPathToUTF8 C db ≠ gostr r"." then
        (if (convertPathToUTF8 C db).contains 95 then
          if (convertPathToUTF8 C db).takeWhile (fun c => !(c == 95)) ≠ [] then
            (convertPathToUTF8 C db).takeWhile (fun c => !(c == 95))
          else (cleanStage (encStage C meta st).1).artist
        else convertPathToUTF8 C db)
      else (cleanStage (encStage C meta st).1).artist) := by
  have hu : processMetadataSt C o meta fb db st =
      fallbackStage o (dropExt (convertPathToUTF8 C fb)) (convertPathToUTF8 C db)
        (padStage (cleanStage (encStage C meta st).1) (encStage C meta st).2).1
        (padStage (cleanStage (encStage C meta st).1) (encStage C meta st).2).2 := rfl
  rw [hu]
  refine ⟨fallbackStage_title _ _ _ _ _, ?_, ?_⟩
  · rw [fallbackStage_album, padStage_album]
  · rw [fallbackStage_artist, padStage_artist]

/-- C6 counterexample for the claim as stated: in encoding-only mode
    (`updateEncoding` set, `force` unset) the pipeline still zero-pads the
    title through `formatTitle` — "1 Song" comes out as "01 Song" — so
    step 3 is not suppressed. -/
theorem c6_counterexample :
    formatTitle (gostr r"1 Song") = gostr r"01 Song" ∧
    (processMetadataSt trivialCodec ⟨false, false, true⟩
        ⟨gostr r"1 Song", gostr r"A", gostr r"B", 0, [], 0⟩
        (gostr r"f.mp3") (gostr r"d") zeroStats).1.title = gostr r"01 Song" ∧
    gostr r"01 Song" ≠ gostr r"1 Song" := by
  decide

/-- C6 as the code has it: the `updateEncodingOnly` option has no effect
    on the pipeline at all — the empty/garbled fallback of step 4 still
    executes whenever its trigger holds, and so do step 3 zero-padding and
    the force-driven derivation; the option changes neither the resulting
    record nor the statistics. -/
theorem c6_update_encoding_irrelevant (C : ExtCodec) (meta : Metadata) (fb db : GoStr)
    (st : Statistics) (f fa u u' : Bool) :
    processMetadataSt C ⟨f, fa, u⟩ meta fb db st =
      processMetadataSt C ⟨f, fa, u'⟩ meta fb db st := rfl

/-- C7 counterexample: on the stem " Foo5" the code trims only trailing
    spaces of the leading text, so the leading space survives and the
    result is "05  Foo" (two spaces), not the "05 Foo" the claim states. -/
theorem c7_counterexample :
    formatTitleFromFilename (gostr r" Foo5") = gostr r"05  Foo" ∧
    formatTitleFromFilename (gostr r" Foo5") ≠ gostr r"05 Foo" := by
  decide

/-- C7 as the code has it: a purely numeric stem is zero-padded to at
    least two digits ("5" to "05", "007" unchanged); a stem with a
    trailing digit run has the digits zero-padded and moved to the front
    with trailing — not leading — spaces trimmed from the leading text, so
    "Foo 5" yields "05 Foo" while " Foo5" yields "05  Foo"; a stem with no
    trailing digit run is returned unchanged. -/
theorem c7_format_title_from_filename :
    (∀ s : GoStr, s ≠ [] → s.all isAsciiDigit = true →
      formatTitleFromFilename s = if s.length = 1 then 48 :: s else s) ∧
    formatTitleFromFilename (gostr r"5") = gostr r"05" ∧
    formatTitleFromFilename (gostr r"007") = gostr r"007" ∧
    formatTitleFromFilename (gostr r"Foo 5") = gostr r"05 Foo" ∧
    formatTitleFromFilename (gostr r" Foo5") = gostr r"05  Foo" ∧
    (∀ s : GoStr, s.all isAsciiDigit = false →
      (s.reverse.takeWhile isAsciiDigit).reverse ≠ [] →
      s.take (s.length - (s.reverse.takeWhile isAsciiDigit).reverse.length) ≠ [] →
      ¬ (s.take (s.length - (s.reverse.takeWhile isAsciiDigit).reverse.length)).contains 10 →
      formatTitleFromFilename s =
        (let digits := (s.reverse.takeWhile isAsciiDigit).reverse
         let text2 := trimRightBy (fun c => c == 32)
           (s.take (s.length - digits.length))
         if text2 = [] then (if digits.length = 1 then 48 :: digits else digits)
         else (if digits.length = 1 then 48 :: digits else digits) ++ 32 :: text2)) ∧
    (∀ s : GoStr, s.reverse.takeWhile isAsciiDigit = [] → formatTitleFromFilename s = s) := by
  refine ⟨?_, by decide, by decide, by decide, by decide, ?_, ?_⟩
  · intro s hne hall
    unfold formatTitleFromFilename
    rw [if_pos ⟨hne, hall⟩]
  · intro s hall hd ht hnl
    unfold formatTitleFromFilename
    rw [if_neg (by simp [hall]), if_pos ⟨hd, ht, hnl⟩]
  · intro s hrev
    unfold formatTitleFromFilename
    by_cases hpure : s ≠ [] ∧ s.all isAsciiDigit = true
    · exfalso
      obtain ⟨hne, hall⟩ := hpure
      cases hs : s.reverse with
      | nil => simp [List.reverse_eq_nil_iff] at hs; exact hne hs
      | cons c cs =>
        have hc : c ∈ s := by
          have : c ∈ s.reverse := by rw [hs]; exact List.mem_cons_self c cs
          simpa using this
        have hcd : isAsciiDigit c = true := by
          rw [List.all_eq_true] at hall
          exact hall c hc
        rw [hs] at hrev
        simp [List.takeWhile, hcd] at hrev
    · rw [if_neg hpure]
      have hd0 : (s.reverse.takeWhile isAsciiDigit).reverse = [] := by
        rw [hrev]; rfl
      rw [if_neg (by simp [hd0])]

/-- Witness for C7's general rules: the purely numeric rule at "42", the
    trailing-run rule at "ab1" and the no-trailing-run rule at "xyz". -/
theorem c7_format_title_from_filename_witness :
    formatTitleFromFilename (gostr r"42") = gostr r"42" ∧
    formatTitleFromFilename (gostr r"ab1") = gostr r"01 ab" ∧
    formatTitleFromFilename (gostr r"xyz") = gostr r"xyz" := by
  refine ⟨?_, ?_, ?_⟩
  · have h := c7_format_title_from_filename.1 (gostr r"42") (by decide) (by decide)
    simpa using h
  · have h := c7_format_title_from_filename.2.2.2.2.2.1 (gostr r"ab1") (by decide) (by decide)
      (by decide) (by decide)
    simpa using h
  · have h := c7_format_title_from_filename.2.2.2.2.2.2 (gostr r"xyz") (by decide)
    simpa using h

/-- C8 counterexample for the claim as stated: this title matches the
    short "Track <digits>" pattern and is 23 characters long — under 50
    characters, so the claim demands the empty string — but its UTF-8
    length is 53 bytes and the code compares `len(text) < 50` in bytes, so
    the text is not blanked. -/
theorem c8_counterexample :
    matchCd3 (gostr r"Track 1 中中中中中中中中中中中中中中中") = true ∧
    (gostr r"Track 1 中中中中中中中中中中中中中中中").length < 50 ∧
    cleanTagText (gostr r"Track 1 中中中中中中中中中中中中中中中") ≠ [] := by
  decide

/-- C8 as the code has it: any text matching the long CD-boilerplate
    patterns is mapped to the empty string immediately, and text matching
    the short "[CD ]?Track <digits>" pattern is mapped to empty when its
    UTF-8 byte length (not character count) is under 50; in particular
    "CD Digital Audio, Track#30" cleans to "" and
    "Track Name [bbs.example.com]" cleans to "Track Name". -/
theorem c8_cd_boilerplate :
    (∀ s : GoStr, matchCd1 s = true → cleanTagText s = []) ∧
    (∀ s : GoStr, matchCd2 s = true → cleanTagText s = []) ∧
    (∀ s : GoStr, matchCd3 s = true → strByteLen s < 50 → cleanTagText s = []) ∧
    cleanTagText (gostr r"CD Digital Audio, Track#30") = [] ∧
    cleanTagText (gostr r"Track Name [bbs.example.com]") = gostr r"Track Name" := by
  refine ⟨?_, ?_, ?_, by decide, by decide⟩
  · intro s h
    by_cases hs : s = []
    · subst hs
      exact absurd h (by decide)
    · unfold cleanTagText
      rw [if_neg hs, if_pos h]
  · intro s h
    by_cases hs : s = []
    · subst hs
      exact absurd h (by decide)
    · unfold cleanTagText
      rw [if_neg hs]
      by_cases h1 : matchCd1 s = true
      · rw [if_pos h1]
      · rw [if_neg h1, if_pos h]
  · intro s h hb
    by_cases hs : s = []
    · subst hs
      exact absurd h (by decide)
    · unfold cleanTagText
      rw [if_neg hs]
      by_cases h1 : matchCd1 s = true
      · rw [if_pos h1]
      · rw [if_neg h1]
        by_cases h2 : matchCd2 s = true
        · rw [if_pos h2]
        · rw [if_neg h2, if_pos ⟨h, hb⟩]

/-- Witness for C8's pattern rules at three concrete boilerplate titles. -/
theorem c8_cd_boilerplate_witness :
    cleanTagText (gostr r"cd digital audio track 5") = [] ∧
    cleanTagText (gostr r"CDDA Track 7") = [] ∧
    cleanTagText (gostr r"Track 9") = [] :=
  ⟨c8_cd_boilerplate.1 (gostr r"cd digital audio track 5") (by decide),
   c8_cd_boilerplate.2.1 (gostr r"CDDA Track 7") (by decide),
   c8_cd_boilerplate.2.2.1 (gostr r"Track 9") (by decide) (by decide)⟩

theorem fixFileEncField_noop (C : ExtCodec) (fld : TagField) (f : GoStr)
    (hf : (fixEncoding C f).2.2 = false) (hg : isGarbled f = false) :
    fixFileEncField C fld f = (f, [], 0) := by
  unfold fixFileEncField
  by_cases hfe : f = []
  · rw [if_neg (fun hcon => hcon hfe)]
  · rw [if_pos hfe]
    simp only [hf, Bool.false_eq_true, if_false, hg]

theorem fixFileCleanNoted_noop (fld : TagField) (f : GoStr)
    (hc : cleanTagText f = f) (hn : f ≠ []) :
    fixFileCleanNoted fld f = (f, []) := by
  unfold fixFileCleanNoted
  rw [if_pos hn]
  simp [hc, hn]

theorem fixFileCleanPlain_noop (fld : TagField) (f : GoStr)
    (hc : cleanTagText f = f) (hn : f ≠ []) :
    fixFileCleanPlain fld f = (f, []) := by
  unfold fixFileCleanPlain
  rw [if_pos hn]
  simp [hc]

theorem fixFilePipeline_noop (C : ExtCodec) (o : ProcessOptions) (meta : Metadata)
    (fb db : GoStr)
    (hfT : (fixEncoding C meta.title).2.2 = false)
    (hfA : (fixEncoding C meta.artist).2.2 = false)
    (hfB : (fixEncoding C meta.album).2.2 = false)
    (hgT : isGarbled meta.title = false)
    (hgA : isGarbled meta.artist = false)
    (hgB : isGarbled meta.album = false)
    (hcT : cleanTagText meta.title = meta.title)
    (hcA : cleanTagText meta.artist = meta.artist)
    (hcB : cleanTagText meta.album = meta.album)
    (hnT : meta.title ≠ []) (hnA : meta.artist ≠ []) (hnB : meta.album ≠ [])
    (hpT : formatTitle meta.title = meta.title)
    (hforce : ¬ (o.force = true ∧ o.forceAll = true)) :
    fixFilePipeline C o meta fb db = ⟨meta, [], 0, false, false⟩ := by
  unfold fixFilePipeline
  rw [fixFileEncField_noop C TagField.title meta.title hfT hgT,
    fixFileEncField_noop C TagField.artist meta.artist hfA hgA,
    fixFileEncField_noop C TagField.album meta.album hfB hgB]
  simp only
  rw [fixFileCleanNoted_noop TagField.title meta.title hcT hnT,
    fixFileCleanPlain_noop TagField.artist meta.artist hcA hnA,
    fixFileCleanNoted_noop TagField.album meta.album hcB hnB]
  simp [hnT, hnA, hnB, hgT, hgA, hgB, hpT, hforce]

/-- C9 counterexample for the claim as stated: a record whose fields are
    valid UTF-8 (encoding repair reports no change), not garbled, and
    fixed points of the cleaner — an empty title, artist "A", album "B" —
    processed for the file "www.x.com" in directory "D": the first pass
    fills the title from the stem "www.x", and the second pass then cleans
    that URL-shaped title away again, so the second pass records change
    events. -/
theorem c9_counterexample :
    ((fixEncoding trivialCodec ([] : GoStr)).2.2 = false ∧
     (fixEncoding trivialCodec (gostr r"A")).2.2 = false ∧
     (fixEncoding trivialCodec (gostr r"B")).2.2 = false) ∧
    (isGarbled ([] : GoStr) = false ∧ isGarbled (gostr r"A") = false ∧
     isGarbled (gostr r"B") = false) ∧
    (cleanTagText ([] : GoStr) = [] ∧ cleanTagText (gostr r"A") = gostr r"A" ∧
     cleanTagText (gostr r"B") = gostr r"B") ∧
    (fixFilePipeline trivialCodec ⟨false, false, false⟩
        (fixFilePipeline trivialCodec ⟨false, false, false⟩
          ⟨[], gostr r"A", gostr r"B", 0, [], 0⟩
          (gostr r"www.x.com") (gostr r"D")).meta
        (gostr r"www.x.com") (gostr r"D")).changes ≠ [] := by
  decide

/-- C9 as the code has it: for a record whose fields are non-empty, valid
    UTF-8 (encoding repair reports no change), not garbled, fixed points
    of the cleaner, whose title is already zero-padded, and with force and
    forceAll not both set, the pipeline changes nothing, so its second
    application records zero change events. -/
theorem c9_second_pass_no_changes (C : ExtCodec) (o : ProcessOptions) (meta : Metadata)
    (fb db : GoStr)
    (hfT : (fixEncoding C meta.title).2.2 = false)
    (hfA : (fixEncoding C meta.artist).2.2 = false)
    (hfB : (fixEncoding C meta.album).2.2 = false)
    (hgT : isGarbled meta.title = false)
    (hgA : isGarbled meta.artist = false)
    (hgB : isGarbled meta.album = false)
    (hcT : cleanTagText meta.title = meta.title)
    (hcA : cleanTagText meta.artist = meta.artist)
    (hcB : cleanTagText meta.album = meta.album)
    (hnT : meta.title ≠ []) (hnA : meta.artist ≠ []) (hnB : meta.album ≠ [])
    (hpT : formatTitle meta.title = meta.title)
    (hforce : ¬ (o.force = true ∧ o.forceAll = true)) :
    (fixFilePipeline C o (fixFilePipeline C o meta fb db).meta fb db).changes = [] := by
  have h0 := fixFilePipeline_noop C o meta fb db hfT hfA hfB hgT hgA hgB hcT hcA hcB
    hnT hnA hnB hpT hforce
  rw [h0]
  simp only
  rw [h0]

/-- Witness for C9 at a concrete already-normalized record. -/
theorem c9_second_pass_no_changes_witness :
    (gostr r"01 Song" ≠ ([] : GoStr) ∧ isGarbled (gostr r"01 Song") = false ∧
     cleanTagText (gostr r"01 Song") = gostr r"01 Song" ∧
     formatTitle (gostr r"01 Song") = gostr r"01 Song") ∧
    (fixFilePipeline trivialCodec ⟨false, false, false⟩
        (fixFilePipeline trivialCodec ⟨false, false, false⟩
          ⟨gostr r"01 Song", gostr r"A", gostr r"B", 0, [], 0⟩
          (gostr r"f.mp3") (gostr r"d")).meta
        (gostr r"f.mp3") (gostr r"d")).changes = [] :=
  ⟨⟨by decide, by decide, by decide, by decide⟩,
   c9_second_pass_no_changes trivialCodec ⟨false, false, false⟩
     ⟨gostr r"01 Song", gostr r"A", gostr r"B", 0, [], 0⟩
     (gostr r"f.mp3") (gostr r"d") (by decide) (by decide) (by decide) (by decide)
     (by decide) (by decide) (by decide) (by decide) (by decide) (by decide)
     (by decide) (by decide) (by decide) (by decide)⟩

/-- C10: the tag writer skips empty fields — `SetAllTags` and
    `WriteTagsToFile` set a title, artist, album, year or genre frame only
    when the supplied string is non-empty — so an empty pipeline output
    leaves the previously stored frame on disk unchanged, and every frame
    the writer does not set (including all non-text frames) is written
    back untouched. -/
theorem c10_empty_fields_preserved (d : TagData) (tag : Id3Tag) :
    (d.title = [] → (writeTagsToFile d tag).title = tag.title) ∧
    (d.artist = [] → (writeTagsToFile d tag).artist = tag.artist) ∧
    (d.album = [] → (writeTagsToFile d tag).album = tag.album) ∧
    (d.year = [] → (writeTagsToFile d tag).year = tag.year) ∧
    (d.genre = [] → (writeTagsToFile d tag).genre = tag.genre) ∧
    (d.comment = [] → (writeTagsToFile d tag).comments = tag.comments) ∧
    (writeTagsToFile d tag).others = tag.others := by
  refine ⟨?_, ?_, ?_, ?_, ?_, ?_, ?_⟩
  · intro h
    simp [writeTagsToFile, setAllTags, setTitleW, setArtistW, setAlbumW, setYearW,
      setGenreW, setCommentW, apply_ite Id3Tag.title, ite_self, h]
  · intro h
    simp [writeTagsToFile, setAllTags, setTitleW, setArtistW, setAlbumW, setYearW,
      setGenreW, setCommentW, apply_ite Id3Tag.artist, ite_self, h]
  · intro h
    simp [writeTagsToFile, setAllTags, setTitleW, setArtistW, setAlbumW, setYearW,
      setGenreW, setCommentW, apply_ite Id3Tag.album, ite_self, h]
  · intro h
    simp [writeTagsToFile, setAllTags, setTitleW, setArtistW, setAlbumW, setYearW,
      setGenreW, setCommentW, apply_ite Id3Tag.year, ite_self, h]
  · intro h
    simp [writeTagsToFile, setAllTags, setTitleW, setArtistW, setAlbumW, setYearW,
      setGenreW, setCommentW, apply_ite Id3Tag.genre, ite_self, h]
  · intro h
    simp [writeTagsToFile, setAllTags, setTitleW, setArtistW, setAlbumW, setYearW,
      setGenreW, setCommentW, apply_ite Id3Tag.comments, ite_self, h]
  · simp [writeTagsToFile, setAllTags, setTitleW, setArtistW, setAlbumW, setYearW,
      setGenreW, setCommentW, apply_ite Id3Tag.others, ite_self]

/-- Witness for C10: a tag data with empty title, year, genre and comment
    leaves those frames and the non-text frames of the stored tag intact. -/
theorem c10_empty_fields_preserved_witness :
    (([] : GoStr) = [] ∧
      (writeTagsToFile ⟨[], gostr r"NewArtist", gostr r"NewAlbum", [], [], [], []⟩
        ⟨gostr r"Old", gostr r"A", gostr r"B", gostr r"2001", gostr r"G",
          [gostr r"c"], [(gostr r"APIC", gostr r"art")]⟩).title = gostr r"Old") ∧
    (writeTagsToFile ⟨[], gostr r"NewArtist", gostr r"NewAlbum", [], [], [], []⟩
        ⟨gostr r"Old", gostr r"A", gostr r"B", gostr r"2001", gostr r"G",
          [gostr r"c"], [(gostr r"APIC", gostr r"art")]⟩).others =
      [(gostr r"APIC", gostr r"art")] :=
  ⟨⟨rfl, (c10_empty_fields_preserved
      ⟨[], gostr r"NewArtist", gostr r"NewAlbum", [], [], [], []⟩
      ⟨gostr r"Old", gostr r"A", gostr r"B", gostr r"2001", gostr r"G",
        [gostr r"c"], [(gostr r"APIC", gostr r"art")]⟩).1 rfl⟩,
   (c10_empty_fields_preserved
      ⟨[], gostr r"NewArtist", gostr r"NewAlbum", [], [], [], []⟩
      ⟨gostr r"Old", gostr r"A", gostr r"B", gostr r"2001", gostr r"G",
        [gostr r"c"], [(gostr r"APIC", gostr r"art")]⟩).2.2.2.2.2.2⟩
